import Mathlib

/-!
Shallow embedding of the DQN training script
`PyTorchImplementations/atari_deepQLearning/train.py`: the experience-replay
buffer, the epsilon-greedy agent step, the bootstrapped temporal-difference
loss, and the training loop's per-frame state transition.

Real-valued quantities (rewards, Q-values, epsilon, the loss) are modelled as
rationals.  The randomness of numpy, the environment and the optimizer enters
through explicit oracle parameters: `np.random.random()` becomes a rational
`rand`, `env.action_space.sample()` a natural `randAction`, `env.step` a
function from the chosen action to `(new_state, reward, done)`,
`np.random.choice(n, k, replace=False)` a function from `n` to the drawn index
list (constrained by `npChoiceSpec`), and the Adam update an arbitrary
function of the online parameters and the loss value.
-/

/-- Discount factor `GAMMA = 0.99`. -/
def GAMMA : ℚ := 99 / 100

/-- Batch size for sampled updates, `BATCH_SIZE = 32`. -/
def BATCH_SIZE : Nat := 32

/-- Replay-buffer capacity, `REPLAY_SIZE = 10000`. -/
def REPLAY_SIZE : Nat := 10000

/-- Minimum buffer population before updates start, `REPLAY_START_SIZE = 10000`. -/
def REPLAY_START_SIZE : Nat := 10000

/-- Frames between target-network syncs, `SYNC_TARGET_FRAMES = 1000`. -/
def SYNC_TARGET_FRAMES : Nat := 1000

/-- Frame at which the epsilon decay bottoms out, `EPSILON_DECAY_LAST_FRAME = 10^5`. -/
def EPSILON_DECAY_LAST_FRAME : Nat := 10 ^ 5

/-- Initial epsilon, `EPSILON_START = 1.0`. -/
def EPSILON_START : ℚ := 1

/-- Final epsilon, `EPSILON_FINAL = 0.02`. -/
def EPSILON_FINAL : ℚ := 2 / 100

/-- One environment transition: the namedtuple
`Experience(state, action, reward, done, new_state)`. -/
structure Experience (S : Type) where
  state : S
  action : Nat
  reward : ℚ
  done : Bool
  new_state : S
deriving DecidableEq, Repr

/-- The replay buffer: `collections.deque(maxlen=capacity)` holding
`Experience` records, oldest first. -/
structure ExperienceBuffer (S : Type) where
  capacity : Nat
  buffer : List (Experience S)
deriving DecidableEq, Repr

/-- `ExperienceBuffer.append`: a `deque(maxlen=capacity)` append — the record
goes to the right end, and when the deque is already at capacity the leftmost
(oldest) record is discarded. -/
def ExperienceBuffer.append {S : Type} (b : ExperienceBuffer S) (e : Experience S) :
    ExperienceBuffer S :=
  let l := b.buffer ++ [e]
  { b with buffer := if b.capacity < l.length then l.tail else l }

/-- Fold a whole list of records into the buffer by successive `append`s. -/
def ExperienceBuffer.appendAll {S : Type} (b : ExperienceBuffer S)
    (es : List (Experience S)) : ExperienceBuffer S :=
  es.foldl ExperienceBuffer.append b

/-- Modelled from the spec: the contract of `np.random.choice(n, k,
replace=False)` (an external numpy collaborator, not repository code) — when it
succeeds it returns `k` distinct indices, each below `n`. -/
def npChoiceSpec (n k : Nat) (indices : List Nat) : Prop :=
  indices.length = k ∧ indices.Nodup ∧ ∀ i ∈ indices, i < n

instance (n k : Nat) (indices : List Nat) : Decidable (npChoiceSpec n k indices) := by
  unfold npChoiceSpec; infer_instance

/-- Look up every index in the record list (`[self.buffer[idx] for idx in
indices]`); `none` as soon as one index is out of range. -/
def getRecords {S : Type} (l : List (Experience S)) : List Nat → Option (List (Experience S))
  | [] => some []
  | i :: is =>
      match l.get? i, getRecords l is with
      | some r, some rs => some (r :: rs)
      | _, _ => none

/-- `ExperienceBuffer.sample`: `np.random.choice(len(self.buffer), batch_size,
replace=False)` fails (ValueError) when `batch_size` exceeds the population
`len(self.buffer)`; otherwise the records at the drawn indices are unzipped
into five parallel lists (states, actions, rewards, dones, next states), in
the order the indices were drawn.  The drawn indices are an oracle argument;
the buffer itself is read, never written. -/
def ExperienceBuffer.sample {S : Type} (b : ExperienceBuffer S) (batch_size : Nat)
    (indices : List Nat) :
    Option (List S × List Nat × List ℚ × List Bool × List S) :=
  if batch_size ≤ b.buffer.length then
    (getRecords b.buffer indices).map fun recs =>
      (recs.map Experience.state, recs.map Experience.action,
       recs.map Experience.reward, recs.map Experience.done,
       recs.map Experience.new_state)
  else none

instance {S : Type} [Inhabited S] : Inhabited (Experience S) :=
  ⟨⟨default, 0, 0, false, default⟩⟩

/-- The records of the buffer at the given indices, read totally (the default
record stands in for an out-of-range index, which a valid numpy draw never
produces). -/
def recordsAt {S : Type} [Inhabited S] (b : ExperienceBuffer S) (indices : List Nat) :
    List (Experience S) :=
  indices.map fun i => b.buffer.getD i default

/-- The agent's mutable attributes: `self.state` and `self.total_reward`. -/
structure AgentState (S : Type) where
  state : S
  total_reward : ℚ
deriving DecidableEq, Repr

/-- Index of the first maximum of a list of Q-values (torch.max over the
action dimension), accumulator form. -/
def argmaxAux : List ℚ → Nat → ℚ → Nat → Nat
  | [], _, _, bi => bi
  | x :: xs, i, bv, bi =>
      if bv < x then argmaxAux xs (i + 1) x i else argmaxAux xs (i + 1) bv bi

/-- Index of the first maximum of a list of Q-values. -/
def argmaxQ : List ℚ → Nat
  | [] => 0
  | x :: xs => argmaxAux xs 1 x 0

/-- Maximum of a list of Q-values (`tensor.max(1)[0]` over a nonempty action
dimension; `0` for the empty list, which torch would reject). -/
def listMax : List ℚ → ℚ
  | [] => 0
  | x :: xs => xs.foldl max x

/-- Action selection inside `Agent.play_step`: if `np.random.random() < epsilon`
take the environment sampler's action, otherwise the argmax of the network's
Q-values on the current state. -/
def chooseAction {S : Type} (net : S → List ℚ) (state : S) (epsilon rand : ℚ)
    (randAction : Nat) : Nat :=
  if rand < epsilon then randAction else argmaxQ (net state)

/-- `Agent.play_step`: choose an action epsilon-greedily, advance the
environment (`envStep action = (new_state, reward, done)`), accumulate the
reward, append the transition to the buffer, move to `new_state`, and on
`done` report the accumulated episode reward and reset to the fresh
observation `resetObs` with a zeroed accumulator; otherwise report `none`. -/
def play_step {S : Type} (net : S → List ℚ) (epsilon rand : ℚ) (randAction : Nat)
    (envStep : Nat → S × ℚ × Bool) (resetObs : S)
    (ag : AgentState S) (buf : ExperienceBuffer S) :
    AgentState S × ExperienceBuffer S × Option ℚ :=
  let action := chooseAction net ag.state epsilon rand randAction
  let res := envStep action
  let new_state := res.1
  let reward := res.2.1
  let done := res.2.2
  let total := ag.total_reward + reward
  let exp : Experience S := ⟨ag.state, action, reward, done, new_state⟩
  let buf2 := buf.append exp
  if done then (⟨resetObs, 0⟩, buf2, some total)
  else (⟨new_state, total⟩, buf2, none)

/-- The gather step of `calc_loss`:
`net(states_v).gather(1, actions_v.unsqueeze(-1)).squeeze(-1)` — for each
batch element, the online network's Q-value for the action actually taken. -/
def gatherQ {S : Type} (net : S → List ℚ) (states : List S) (actions : List Nat) :
    List ℚ :=
  List.zipWith (fun qs a => qs.getD a 0) (states.map net) actions

/-- The bootstrap values of `calc_loss`: `tgt_net(next_states_v).max(1)[0]`
with `next_state_values[done_mask] = 0.0` (the terminal mask applied). -/
def bootstrapQ {S : Type} (tgt_net : S → List ℚ) (next_states : List S)
    (dones : List Bool) : List ℚ :=
  List.zipWith (fun s d => if d then 0 else listMax (tgt_net s)) next_states dones

/-- The regression targets of `calc_loss`:
`expected_state_action_values = next_state_values * GAMMA + rewards_v`. -/
def expectedQ {S : Type} (tgt_net : S → List ℚ) (next_states : List S)
    (dones : List Bool) (rewards : List ℚ) : List ℚ :=
  List.zipWith (fun v r => v * GAMMA + r) (bootstrapQ tgt_net next_states dones) rewards

/-- `nn.MSELoss()`: the mean of the squared componentwise differences. -/
def mseLoss (p e : List ℚ) : ℚ :=
  (List.zipWith (fun x y => (x - y) ^ 2) p e).sum / p.length

/-- `calc_loss`: the bootstrapped one-step TD loss of the script — gather the
taken-action values from the online net, take the target net's max over the
next states, zero it on terminal transitions, scale by `GAMMA`, add the
rewards, and return the MSE against the gathered values.  (The `detach` in
the source only stops gradient flow; it is the identity on values.) -/
def calc_loss {S : Type} (net tgt_net : S → List ℚ) (states : List S)
    (actions : List Nat) (rewards : List ℚ) (dones : List Bool)
    (next_states : List S) : ℚ :=
  mseLoss (gatherQ net states actions) (expectedQ tgt_net next_states dones rewards)

/-- The epsilon schedule of the training loop at frame `f`:
`max(EPSILON_FINAL, EPSILON_START - frame_idx / EPSILON_DECAY_LAST_FRAME)`. -/
def epsilonAt (f : Nat) : ℚ :=
  max EPSILON_FINAL (EPSILON_START - (f : ℚ) / (EPSILON_DECAY_LAST_FRAME : ℚ))

/-- `np.mean` of a list of rationals (`0` on the empty list). -/
def npMean (l : List ℚ) : ℚ := l.sum / l.length

/-- Python's `l[-n:]`: the last `n` elements of `l` (all of `l` when shorter). -/
def lastN {α : Type} (n : Nat) (l : List α) : List α := l.drop (l.length - n)

/-- The mutable state of the `__main__` training loop: frame counter, current
epsilon, the agent, the buffer, the online and target parameter vectors (of an
abstract parameter type `W`), the episode-reward history, and
`best_mean_reward` (`none` models Python's `None`). -/
structure TrainState (S W : Type) where
  frame_idx : Nat
  epsilon : ℚ
  agent : AgentState S
  buffer : ExperienceBuffer S
  netP : W
  tgtP : W
  total_rewards : List ℚ
  best_mean_reward : Option ℚ
deriving DecidableEq, Repr

/-- The external nondeterminism consumed by one loop iteration:
`np.random.random()`, `env.action_space.sample()`, `env.step`, `env.reset`,
`np.random.choice(n, BATCH_SIZE, replace=False)` as a function of the
population `n`, and the optimizer's effect on the online parameters given the
loss value. -/
structure StepOracle (S W : Type) where
  rand : ℚ
  randAction : Nat
  envStep : Nat → S × ℚ × Bool
  resetObs : S
  choose : Nat → List Nat
  gradStep : W → ℚ → W

/-- What one loop iteration produced: the successor state, whether
`torch.save` ran (`saved`), whether the loop `break`s / the process dies
(`stop`), whether `buffer.sample` was reached (`sampled`), and whether that
call failed (`sampleFailed`, Python's ValueError). -/
structure LoopResult (S W : Type) where
  state : TrainState S W
  saved : Bool
  stop : Bool
  sampled : Bool
  sampleFailed : Bool
deriving Repr

/-- One iteration of the `while True` training loop, with the network
architecture fixed as `netFun : W → S → List ℚ` and the `--reward` stop bound
`reward_bound`.  Faithful to the source, including the placement of
`best_mean_reward = mean_reward` inside the `if best_mean_reward is not None`
branch, the `break` check inside the save branch, the `continue` while the
buffer is below `REPLAY_START_SIZE`, and the target sync when
`frame_idx % SYNC_TARGET_FRAMES == 0`. -/
def loopStep {S W : Type} (netFun : W → S → List ℚ) (reward_bound : ℚ)
    (st : TrainState S W) (o : StepOracle S W) : LoopResult S W :=
  let frame := st.frame_idx + 1
  let eps := epsilonAt frame
  let stepRes := play_step (netFun st.netP) eps o.rand o.randAction o.envStep
    o.resetObs st.agent st.buffer
  let ag2 := stepRes.1
  let buf2 := stepRes.2.1
  let rewOpt := stepRes.2.2
  let report :=
    match rewOpt with
    | none => (st.total_rewards, st.best_mean_reward, false, false)
    | some r =>
        let total2 := st.total_rewards ++ [r]
        let mean := npMean (lastN 100 total2)
        match st.best_mean_reward with
        | none => (total2, none, true, decide (reward_bound < mean))
        | some b =>
            if b < mean then (total2, some mean, true, decide (reward_bound < mean))
            else (total2, some b, false, false)
  let st2 : TrainState S W :=
    { st with
      frame_idx := frame, epsilon := eps, agent := ag2, buffer := buf2,
      total_rewards := report.1, best_mean_reward := report.2.1 }
  if report.2.2.2 then ⟨st2, report.2.2.1, true, false, false⟩
  else if buf2.buffer.length < REPLAY_START_SIZE then
    ⟨st2, report.2.2.1, false, false, false⟩
  else
    let tgt2 := if frame % SYNC_TARGET_FRAMES = 0 then st.netP else st.tgtP
    let n := buf2.buffer.length
    match buf2.sample BATCH_SIZE (o.choose n) with
    | none => ⟨{ st2 with tgtP := tgt2 }, report.2.2.1, true, true, true⟩
    | some batch =>
        let loss := calc_loss (netFun st.netP) (netFun tgt2) batch.1 batch.2.1
          batch.2.2.1 batch.2.2.2.1 batch.2.2.2.2
        ⟨{ st2 with tgtP := tgt2, netP := o.gradStep st.netP loss },
          report.2.2.1, false, true, false⟩

/-- Run the training loop over a list of per-iteration oracles, halting early
when an iteration `break`s or dies. -/
def runLoop {S W : Type} (netFun : W → S → List ℚ) (reward_bound : ℚ) :
    TrainState S W → List (StepOracle S W) → TrainState S W
  | st, [] => st
  | st, o :: os =>
      let r := loopStep netFun reward_bound st o
      if r.stop then r.state else runLoop netFun reward_bound r.state os

/-- A fresh training-loop state (frame 0, empty buffer of capacity
`REPLAY_SIZE`, no reward history, `best_mean_reward = None`), over trivial
observation and parameter types; a concrete input for exercising the loop. -/
def demoState0 : TrainState Unit Unit :=
  ⟨0, 1, ⟨(), 0⟩, ⟨10000, []⟩, (), (), [], none⟩

/-- A per-iteration oracle whose environment step ends the episode immediately
with reward `r`; a concrete input for exercising the loop. -/
def demoOracle (r : ℚ) : StepOracle Unit Unit :=
  ⟨0, 0, fun _ => ((), r, true), (), fun _ => [], fun p _ => p⟩

/-! ## Helper lemmas -/

theorem append_capacity {S : Type} (b : ExperienceBuffer S) (e : Experience S) :
    (b.append e).capacity = b.capacity := rfl

theorem append_buffer_eq {S : Type} (b : ExperienceBuffer S) (e : Experience S)
    (h : b.buffer.length ≤ b.capacity) :
    (b.append e).buffer = (b.buffer ++ [e]).drop (b.buffer.length + 1 - b.capacity) := by
  show (if b.capacity < (b.buffer ++ [e]).length then (b.buffer ++ [e]).tail
        else b.buffer ++ [e]) = _
  by_cases hc : b.capacity < (b.buffer ++ [e]).length
  · rw [if_pos hc]
    have hlen : (b.buffer ++ [e]).length = b.buffer.length + 1 := by simp
    have h1 : b.buffer.length + 1 - b.capacity = 1 := by omega
    rw [h1, ← List.drop_one]
  · rw [if_neg hc]
    have hlen : (b.buffer ++ [e]).length = b.buffer.length + 1 := by simp
    have h0 : b.buffer.length + 1 - b.capacity = 0 := by omega
    rw [h0, List.drop_zero]

theorem appendAll_buffer_eq {S : Type} :
    ∀ (es : List (Experience S)) (b : ExperienceBuffer S),
      b.buffer.length ≤ b.capacity →
      (b.appendAll es).buffer =
        (b.buffer ++ es).drop ((b.buffer ++ es).length - b.capacity) := by
  intro es
  induction es with
  | nil =>
      intro b h
      have h0 : (b.buffer ++ []).length - b.capacity = 0 := by
        rw [List.append_nil]
        omega
      show b.buffer = _
      rw [h0, List.drop_zero, List.append_nil]
  | cons e es ih =>
      intro b h
      have hstep : (b.appendAll (e :: es)) = ((b.append e).appendAll es) := rfl
      have hlen : (b.append e).buffer.length ≤ (b.append e).capacity := by
        rw [append_buffer_eq b e h, append_capacity, List.length_drop,
          List.length_append, List.length_singleton]
        omega
      rw [hstep, ih (b.append e) hlen, append_buffer_eq b e h, append_capacity]
      have hd : b.buffer.length + 1 - b.capacity ≤ (b.buffer ++ [e]).length := by
        rw [List.length_append, List.length_singleton]
        omega
      rw [← List.drop_append_of_le_length hd, List.drop_drop]
      have hl : (b.buffer ++ [e]) ++ es = b.buffer ++ e :: es := by
        simp
      rw [hl]
      congr 1
      simp only [List.length_drop, List.length_append, List.length_cons]
      omega

/-! ## Claim theorems -/

/-- C3: for every capacity `C > 0`, a sequence of more than `C` appends into a
fresh buffer leaves exactly the last `C` appended records, in insertion order
(strict FIFO eviction), and the length after any sequence of appends never
exceeds `C`. -/
theorem buffer_fifo_last_C {S : Type} (C : Nat) (hC : 0 < C)
    (es : List (Experience S)) :
    (C < es.length →
      (ExperienceBuffer.appendAll ⟨C, []⟩ es).buffer = es.drop (es.length - C)) ∧
    (ExperienceBuffer.appendAll ⟨C, []⟩ es).buffer.length ≤ C := by
  have hbase : (([] : List (Experience S))).length ≤ C := by simp
  have h := appendAll_buffer_eq es (⟨C, []⟩ : ExperienceBuffer S) hbase
  simp only [List.nil_append] at h
  constructor
  · intro _
    exact h
  · rw [h]
    simp [List.length_drop]
    omega

/-- Witness for C3: capacity 2, three appends keep the last two records. -/
theorem buffer_fifo_last_C_witness :
    (0 < 2 ∧ 2 < ([⟨0, 0, 1, false, 0⟩, ⟨0, 0, 2, false, 0⟩,
        ⟨0, 0, 3, false, 0⟩] : List (Experience Nat)).length) ∧
    (ExperienceBuffer.appendAll ⟨2, []⟩
        ([⟨0, 0, 1, false, 0⟩, ⟨0, 0, 2, false, 0⟩,
          ⟨0, 0, 3, false, 0⟩] : List (Experience Nat))).buffer =
      [⟨0, 0, 2, false, 0⟩, ⟨0, 0, 3, false, 0⟩] := by
  refine ⟨⟨by decide, by decide⟩, ?_⟩
  have h := (buffer_fifo_last_C (S := Nat) 2 (by decide)
    [⟨0, 0, 1, false, 0⟩, ⟨0, 0, 2, false, 0⟩, ⟨0, 0, 3, false, 0⟩]).1 (by decide)
  simpa using h

theorem getRecords_eq {S : Type} [Inhabited S] (l : List (Experience S)) :
    ∀ idx : List Nat, (∀ i ∈ idx, i < l.length) →
      getRecords l idx = some (idx.map fun i => l.getD i default) := by
  intro idx
  induction idx with
  | nil => intro _; rfl
  | cons i is ih =>
      intro h
      have hi : i < l.length := h i (List.mem_cons_self i is)
      have hrec := ih fun j hj => h j (List.mem_cons_of_mem _ hj)
      cases hx : l.get? i with
      | none =>
          have := List.get?_eq_none.mp hx
          omega
      | some x =>
          have hgd : l.getD i default = x := by
            rw [List.getD_eq_get?, hx, Option.getD_some]
          show (match l.get? i, getRecords l is with
                | some r, some rs => some (r :: rs)
                | _, _ => none) = _
          rw [hx, hrec, List.map_cons, hgd]

/-- C4: a `sample` whose drawn indices satisfy the numpy contract (length `k`,
no duplicates, all below the population) succeeds and returns five parallel
lists of length `k`, the i-th entries of which are the five fields of the
record at the i-th drawn index, in the order the indices were drawn; the
buffer itself is only read (`sample` takes `b` and builds no new buffer). -/
theorem sample_parallel_lists {S : Type} [Inhabited S] (b : ExperienceBuffer S)
    (k : Nat) (indices : List Nat) (h : npChoiceSpec b.buffer.length k indices) :
    b.sample k indices =
      some ((recordsAt b indices).map Experience.state,
            (recordsAt b indices).map Experience.action,
            (recordsAt b indices).map Experience.reward,
            (recordsAt b indices).map Experience.done,
            (recordsAt b indices).map Experience.new_state) ∧
    (recordsAt b indices).length = k ∧ indices.Nodup := by
  obtain ⟨hlen, hnd, hbnd⟩ := h
  have hk : k ≤ b.buffer.length := by
    have hsub : indices.toFinset ⊆ Finset.range b.buffer.length := fun x hx =>
      Finset.mem_range.2 (hbnd x (List.mem_toFinset.1 hx))
    calc k = indices.length := hlen.symm
      _ = indices.toFinset.card := (List.toFinset_card_of_nodup hnd).symm
      _ ≤ (Finset.range b.buffer.length).card := Finset.card_le_card hsub
      _ = b.buffer.length := Finset.card_range _
  refine ⟨?_, ?_, hnd⟩
  · unfold ExperienceBuffer.sample
    rw [if_pos hk, getRecords_eq b.buffer indices hbnd]
    rfl
  · simp [recordsAt, hlen]

/-- Witness for C4: a three-record buffer sampled at the drawn indices
`[2, 0]` yields the third and first records' fields, in draw order. -/
theorem sample_parallel_lists_witness :
    ExperienceBuffer.sample (S := Nat)
        ⟨3, [⟨10, 0, 1, false, 11⟩, ⟨11, 1, 2, false, 12⟩, ⟨12, 2, 3, true, 13⟩]⟩
        2 [2, 0] =
      some ([12, 10], [2, 0], [3, 1], [true, false], [13, 11]) := by
  have h := (sample_parallel_lists (S := Nat)
    ⟨3, [⟨10, 0, 1, false, 11⟩, ⟨11, 1, 2, false, 12⟩, ⟨12, 2, 3, true, 13⟩]⟩
    2 [2, 0] (by decide)).1
  rw [h]
  rfl

theorem getD_zipWith {α β γ : Type} (f : α → β → γ) (d : γ) (d1 : α) (d2 : β) :
    ∀ (l1 : List α) (l2 : List β) (i : Nat), i < l1.length → i < l2.length →
      (List.zipWith f l1 l2).getD i d = f (l1.getD i d1) (l2.getD i d2) := by
  intro l1
  induction l1 with
  | nil => intro l2 i h1 _; simp at h1
  | cons a l1 ih =>
      intro l2 i h1 h2
      cases l2 with
      | nil => simp at h2
      | cons b l2 =>
          cases i with
          | zero => rfl
          | succ i =>
              rw [List.zipWith_cons_cons, List.getD_cons_succ, List.getD_cons_succ,
                List.getD_cons_succ]
              exact ih l2 i (by simpa using h1) (by simpa using h2)

/-- C2: at every batch index whose done-flag is set, the masked bootstrap value
is `0`, so the regression target equals the reward exactly — for every possible
target network (the target network's output at that index is irrelevant). -/
theorem terminal_target_is_reward {S : Type} [Inhabited S] (tgt_net : S → List ℚ)
    (next_states : List S) (dones : List Bool) (rewards : List ℚ) (i : Nat)
    (h1 : i < next_states.length) (h2 : i < dones.length) (h3 : i < rewards.length)
    (hdone : dones.getD i false = true) :
    (bootstrapQ tgt_net next_states dones).getD i 0 = 0 ∧
    (expectedQ tgt_net next_states dones rewards).getD i 0 = rewards.getD i 0 := by
  have hboot : (bootstrapQ tgt_net next_states dones).getD i 0 = 0 := by
    unfold bootstrapQ
    rw [getD_zipWith _ _ default false _ _ i h1 h2, hdone]
    simp
  refine ⟨hboot, ?_⟩
  unfold expectedQ
  have hblen : i < (bootstrapQ tgt_net next_states dones).length := by
    unfold bootstrapQ
    rw [List.length_zipWith]
    omega
  rw [getD_zipWith _ _ 0 0 _ _ i hblen h3, hboot]
  ring

/-- Witness for C2: a terminal transition at index 1 of a two-element batch
has target exactly its reward `7`, under a nonzero target network. -/
theorem terminal_target_is_reward_witness :
    (bootstrapQ (fun s => [s + 100]) [5, 6] [false, true]).getD 1 0 = 0 ∧
    (expectedQ (fun s => [s + 100]) [(5 : ℚ), 6] [false, true] [3, 7]).getD 1 0 = 7 := by
  have h := terminal_target_is_reward (S := ℚ) (fun s => [s + 100]) [5, 6]
    [false, true] [3, 7] 1 (by decide) (by decide) (by decide) (by decide)
  refine ⟨h.1, ?_⟩
  rw [h.2]
  rfl

theorem getD_map {α β : Type} (f : α → β) (e : β) (d : α) :
    ∀ (l : List α) (i : Nat), i < l.length → (l.map f).getD i e = f (l.getD i d) := by
  intro l
  induction l with
  | nil => intro i h; simp at h
  | cons a l ih =>
      intro i h
      cases i with
      | zero => rfl
      | succ i =>
          rw [List.map_cons, List.getD_cons_succ, List.getD_cons_succ]
          exact ih i (by simpa using h)

theorem getD_range (n i d : Nat) (h : i < n) : (List.range n).getD i d = i := by
  rw [List.getD_eq_getElem?_getD, List.getElem?_range h, Option.getD_some]

theorem zipWith_eq_map_range {α β γ : Type} (f : α → β → γ) (d1 : α) (d2 : β) :
    ∀ (l1 : List α) (l2 : List β), l1.length = l2.length →
      List.zipWith f l1 l2 =
        (List.range l1.length).map fun i => f (l1.getD i d1) (l2.getD i d2) := by
  intro l1
  induction l1 with
  | nil => intro l2 _; simp
  | cons a l1 ih =>
      intro l2 h
      cases l2 with
      | nil => simp at h
      | cons b l2 =>
          have h' : l1.length = l2.length := by simpa using h
          rw [List.zipWith_cons_cons, ih l2 h']
          show _ = (List.range (l1.length + 1)).map _
          rw [List.range_succ_eq_map, List.map_cons, List.map_map]
          congr 1

/-- C1: `calc_loss` on five equal-length batch columns equals the mean squared
error between `predicted[i]` — the online network's value on `states[i]`
gathered at `actions[i]` — and `expected[i] = reward[i] + GAMMA * bootstrap[i]`,
where `bootstrap[i]` is the target network's maximum value on `next_states[i]`
(zeroed on terminal transitions). -/
theorem calc_loss_is_batch_mse {S : Type} [Inhabited S] (net tgt_net : S → List ℚ)
    (states : List S) (actions : List Nat) (rewards : List ℚ) (dones : List Bool)
    (next_states : List S) (B : Nat) (hs : states.length = B) (ha : actions.length = B)
    (hr : rewards.length = B) (hd : dones.length = B) (hn : next_states.length = B) :
    calc_loss net tgt_net states actions rewards dones next_states =
      ((List.range B).map fun i =>
        ((net (states.getD i default)).getD (actions.getD i 0) 0 -
          (rewards.getD i 0 + GAMMA *
            (if dones.getD i false then 0
             else listMax (tgt_net (next_states.getD i default))))) ^ 2).sum / B := by
  have hgather : gatherQ net states actions =
      (List.range B).map fun i =>
        (net (states.getD i default)).getD (actions.getD i 0) 0 := by
    unfold gatherQ
    rw [zipWith_eq_map_range _ ([] : List ℚ) 0 _ _ (by rw [List.length_map, hs, ha]),
      List.length_map, hs]
    apply List.map_congr_left
    intro i hi
    rw [getD_map net ([] : List ℚ) default states i
      (by rw [hs]; exact List.mem_range.1 hi)]
  have hboot : bootstrapQ tgt_net next_states dones =
      (List.range B).map fun i =>
        if dones.getD i false then (0 : ℚ)
        else listMax (tgt_net (next_states.getD i default)) := by
    unfold bootstrapQ
    rw [zipWith_eq_map_range _ default false _ _ (by rw [hn, hd]), hn]
  have hexp : expectedQ tgt_net next_states dones rewards =
      (List.range B).map fun i =>
        (if dones.getD i false then (0 : ℚ)
         else listMax (tgt_net (next_states.getD i default))) * GAMMA +
          rewards.getD i 0 := by
    unfold expectedQ
    rw [hboot, zipWith_eq_map_range _ (0 : ℚ) (0 : ℚ) _ _
      (by rw [List.length_map, List.length_range, hr]),
      List.length_map, List.length_range]
    apply List.map_congr_left
    intro i hi
    have hi' := List.mem_range.1 hi
    rw [getD_map _ (0 : ℚ) 0 (List.range B) i (by rw [List.length_range]; exact hi'),
      getD_range B i 0 hi']
  unfold calc_loss mseLoss
  rw [hgather, hexp, List.zipWith_map, List.zipWith_same,
    List.length_map, List.length_range]
  congr 1
  refine congrArg List.sum ?_
  apply List.map_congr_left
  intro i _
  show (_ - _) ^ 2 = _
  ring

/-- Witness for C1: a one-element batch with predicted value `5` and target
`0 + GAMMA * 0` gives loss `25`. -/
theorem calc_loss_is_batch_mse_witness :
    calc_loss (S := ℚ) (fun _ => [5]) (fun _ => [0]) [1] [0] [0] [false] [1] = 25 := by
  have h := calc_loss_is_batch_mse (S := ℚ) (fun _ => [5]) (fun _ => [0])
    [1] [0] [0] [false] [1] 1 rfl rfl rfl rfl rfl
  rw [h, show List.range 1 = [0] from rfl]
  norm_num [GAMMA, listMax]

/-- C5: one `play_step` appends exactly one record, built from the current
state, the chosen action, and the environment's reported reward, done flag and
next state; on `done` it returns the accumulated episode reward and resets the
agent to the fresh reset observation with a zero accumulator; otherwise it
moves the agent to the next state and returns `none`, a sentinel distinct from
`some 0`. -/
theorem play_step_contract {S : Type} (net : S → List ℚ) (epsilon rand : ℚ)
    (randAction : Nat) (envStep : Nat → S × ℚ × Bool) (resetObs : S)
    (ag : AgentState S) (buf : ExperienceBuffer S) (ns : S) (r : ℚ) (d : Bool)
    (hstep : envStep (chooseAction net ag.state epsilon rand randAction) = (ns, r, d)) :
    (play_step net epsilon rand randAction envStep resetObs ag buf).2.1 =
      buf.append ⟨ag.state, chooseAction net ag.state epsilon rand randAction, r, d, ns⟩ ∧
    (d = true →
      (play_step net epsilon rand randAction envStep resetObs ag buf).2.2 =
        some (ag.total_reward + r) ∧
      (play_step net epsilon rand randAction envStep resetObs ag buf).1 =
        ⟨resetObs, 0⟩) ∧
    (d = false →
      (play_step net epsilon rand randAction envStep resetObs ag buf).2.2 = none ∧
      (play_step net epsilon rand randAction envStep resetObs ag buf).2.2 ≠ some 0 ∧
      (play_step net epsilon rand randAction envStep resetObs ag buf).1 =
        ⟨ns, ag.total_reward + r⟩) := by
  unfold play_step
  dsimp only
  rw [hstep]
  dsimp only
  cases d with
  | true =>
      refine ⟨rfl, fun _ => ⟨rfl, rfl⟩, ?_⟩
      intro h
      cases h
  | false =>
      refine ⟨rfl, ?_, fun _ => ⟨rfl, ?_, rfl⟩⟩
      · intro h
        cases h
      · simp

/-- Witness for C5: a concrete non-terminal step (reward `3`) and the
record it appends. -/
theorem play_step_contract_witness :
    (play_step (S := Nat) (fun _ => [1]) 1 0 7 (fun _ => (9, 3, false)) 4
        ⟨5, 2⟩ ⟨10, []⟩).2.1 =
      ExperienceBuffer.append ⟨10, []⟩ ⟨5, 7, 3, false, 9⟩ ∧
    (play_step (S := Nat) (fun _ => [1]) 1 0 7 (fun _ => (9, 3, false)) 4
        ⟨5, 2⟩ ⟨10, []⟩).2.2 = none ∧
    (play_step (S := Nat) (fun _ => [1]) 1 0 7 (fun _ => (9, 3, false)) 4
        ⟨5, 2⟩ ⟨10, []⟩).1 = ⟨9, 5⟩ := by
  have h := play_step_contract (S := Nat) (fun _ => [1]) 1 0 7
    (fun _ => (9, 3, false)) 4 ⟨5, 2⟩ ⟨10, []⟩ 9 3 false rfl
  have hact : chooseAction (S := Nat) (fun _ => [1]) 5 1 0 7 = 7 := by decide
  refine ⟨?_, (h.2.2 rfl).1, ?_⟩
  · rw [h.1, hact]
  · have := (h.2.2 rfl).2.2
    rw [this]
    norm_num

/-- C9: with `epsilon = EPSILON_START = 1.0` and any random draw in `[0, 1)`,
the chosen action is the environment sampler's action, and the whole step is
independent of the policy network — two arbitrary networks produce identical
results. -/
theorem epsilon_one_never_consults_net {S : Type} (net1 net2 : S → List ℚ)
    (rand : ℚ) (h0 : 0 ≤ rand) (h1 : rand < 1) (s : S) (randAction : Nat)
    (envStep : Nat → S × ℚ × Bool) (resetObs : S) (ag : AgentState S)
    (buf : ExperienceBuffer S) :
    chooseAction net1 s EPSILON_START rand randAction = randAction ∧
    play_step net1 EPSILON_START rand randAction envStep resetObs ag buf =
      play_step net2 EPSILON_START rand randAction envStep resetObs ag buf := by
  have hlt : rand < EPSILON_START := by
    unfold EPSILON_START
    exact h1
  constructor
  · unfold chooseAction
    rw [if_pos hlt]
  · unfold play_step chooseAction
    simp only [if_pos hlt]

/-- Witness for C9: at draw `1/2`, two very different networks take the same
step through the random action `3`. -/
theorem epsilon_one_never_consults_net_witness :
    chooseAction (S := Nat) (fun _ => [0, 9]) 5 EPSILON_START (1 / 2) 3 = 3 ∧
    play_step (S := Nat) (fun _ => [0, 9]) EPSILON_START (1 / 2) 3
        (fun a => (a, 1, false)) 0 ⟨5, 0⟩ ⟨10, []⟩ =
      play_step (S := Nat) (fun _ => [7, 1]) EPSILON_START (1 / 2) 3
        (fun a => (a, 1, false)) 0 ⟨5, 0⟩ ⟨10, []⟩ :=
  epsilon_one_never_consults_net (S := Nat) (fun _ => [0, 9]) (fun _ => [7, 1])
    (1 / 2) (by norm_num) (by norm_num) 5 3 (fun a => (a, 1, false)) 0 ⟨5, 0⟩ ⟨10, []⟩

theorem loopStep_epsilon {S W : Type} (netFun : W → S → List ℚ) (bd : ℚ)
    (st : TrainState S W) (o : StepOracle S W) :
    (loopStep netFun bd st o).state.epsilon = epsilonAt (st.frame_idx + 1) := by
  unfold loopStep
  dsimp only
  repeat' split
  all_goals rfl

theorem loopStep_frame {S W : Type} (netFun : W → S → List ℚ) (bd : ℚ)
    (st : TrainState S W) (o : StepOracle S W) :
    (loopStep netFun bd st o).state.frame_idx = st.frame_idx + 1 := by
  unfold loopStep
  dsimp only
  repeat' split
  all_goals rfl

theorem loopStep_tgt_of_not_sync {S W : Type} (netFun : W → S → List ℚ) (bd : ℚ)
    (st : TrainState S W) (o : StepOracle S W)
    (h : ¬ (st.frame_idx + 1) % SYNC_TARGET_FRAMES = 0) :
    (loopStep netFun bd st o).state.tgtP = st.tgtP := by
  unfold loopStep
  dsimp only
  rw [if_neg h]
  repeat' split
  all_goals rfl

/-- C10: each loop iteration computes and supplies to `play_step` the epsilon
`epsilonAt (frame_idx) = max(EPSILON_FINAL, EPSILON_START - frame_idx /
EPSILON_DECAY_LAST_FRAME)` for the incremented frame counter (the same value
stored in the state); the schedule is monotonically non-increasing in the
frame index, starts at or below `1.0`, and never falls below `0.02`. -/
theorem epsilon_schedule {S W : Type} (netFun : W → S → List ℚ) (bd : ℚ)
    (st : TrainState S W) (o : StepOracle S W) :
    ((loopStep netFun bd st o).state.epsilon = epsilonAt (st.frame_idx + 1) ∧
      epsilonAt (st.frame_idx + 1) =
        max EPSILON_FINAL
          (EPSILON_START - (st.frame_idx + 1 : ℚ) / (EPSILON_DECAY_LAST_FRAME : ℚ))) ∧
    (∀ f g : Nat, f ≤ g → epsilonAt g ≤ epsilonAt f) ∧
    (∀ f : Nat, EPSILON_FINAL ≤ epsilonAt f ∧ epsilonAt f ≤ 1) := by
  refine ⟨⟨loopStep_epsilon netFun bd st o, ?_⟩, ?_, ?_⟩
  · unfold epsilonAt
    push_cast
    ring_nf
  · intro f g hfg
    unfold epsilonAt
    apply max_le_max (le_refl EPSILON_FINAL)
    apply sub_le_sub_left
    exact div_le_div_of_nonneg_right (by exact_mod_cast hfg)
      (by norm_num [EPSILON_DECAY_LAST_FRAME])
  · intro f
    unfold epsilonAt
    refine ⟨le_max_left _ _, max_le ?_ ?_⟩
    · norm_num [EPSILON_FINAL]
    · unfold EPSILON_START
      have hnn : (0 : ℚ) ≤ (f : ℚ) / (EPSILON_DECAY_LAST_FRAME : ℚ) := by
        positivity
      linarith

/-- Witness for C10: a fresh state at frame 0 yields epsilon
`epsilonAt 1` on the first iteration, and the schedule facts hold at
concrete frames. -/
theorem epsilon_schedule_witness :
    ((loopStep (S := Nat) (W := Nat) (fun _ _ => [0]) 1000
          ⟨0, 1, ⟨0, 0⟩, ⟨10000, []⟩, 0, 0, [], none⟩
          ⟨0, 0, fun _ => (0, 0, false), 0, fun _ => [], fun p _ => p⟩).state.epsilon =
        epsilonAt 1 ∧
      epsilonAt 1 =
        max EPSILON_FINAL (EPSILON_START - (1 : ℚ) / (EPSILON_DECAY_LAST_FRAME : ℚ))) ∧
    epsilonAt 5 ≤ epsilonAt 3 ∧ EPSILON_FINAL ≤ epsilonAt 7 ∧ epsilonAt 7 ≤ 1 := by
  have h := epsilon_schedule (S := Nat) (W := Nat) (fun _ _ => [0]) 1000
    ⟨0, 1, ⟨0, 0⟩, ⟨10000, []⟩, 0, 0, [], none⟩
    ⟨0, 0, fun _ => (0, 0, false), 0, fun _ => [], fun p _ => p⟩
  refine ⟨⟨h.1.1, by exact_mod_cast h.1.2⟩, h.2.1 3 5 (by omega), (h.2.2 7).1, (h.2.2 7).2⟩

theorem runLoop_tgt_no_sync {S W : Type} (netFun : W → S → List ℚ) (bd : ℚ) :
    ∀ (os : List (StepOracle S W)) (st : TrainState S W),
      st.frame_idx % SYNC_TARGET_FRAMES + os.length < SYNC_TARGET_FRAMES →
      (runLoop netFun bd st os).tgtP = st.tgtP := by
  intro os
  induction os with
  | nil => intro st _; rfl
  | cons o os ih =>
      intro st h
      rw [List.length_cons] at h
      have hS : SYNC_TARGET_FRAMES = 1000 := rfl
      rw [hS] at h
      have hm : (st.frame_idx + 1) % SYNC_TARGET_FRAMES =
          st.frame_idx % SYNC_TARGET_FRAMES + 1 := by
        rw [hS] at *
        omega
      have hne : ¬ (st.frame_idx + 1) % SYNC_TARGET_FRAMES = 0 := by
        rw [hm]
        omega
      show (let r := loopStep netFun bd st o;
            if r.stop then r.state else runLoop netFun bd r.state os).tgtP = st.tgtP
      dsimp only
      by_cases hstop : (loopStep netFun bd st o).stop = true
      · rw [if_pos hstop]
        exact loopStep_tgt_of_not_sync netFun bd st o hne
      · rw [if_neg hstop]
        have hrec := ih (loopStep netFun bd st o).state ?hlt
        · rw [hrec]
          exact loopStep_tgt_of_not_sync netFun bd st o hne
        case hlt =>
          rw [loopStep_frame, hm, hS] at *
          omega

theorem loopStep_tgt_of_sampled {S W : Type} (netFun : W → S → List ℚ) (bd : ℚ)
    (st : TrainState S W) (o : StepOracle S W) :
    (loopStep netFun bd st o).sampled = true →
    (loopStep netFun bd st o).state.tgtP =
      (if (st.frame_idx + 1) % SYNC_TARGET_FRAMES = 0 then st.netP else st.tgtP) := by
  by_cases hs : (st.frame_idx + 1) % SYNC_TARGET_FRAMES = 0
  · rw [if_pos hs]
    unfold loopStep
    dsimp only
    rw [if_pos hs]
    repeat' split
    all_goals first
      | (intro h2; rfl)
      | (intro h2; cases h2)
  · rw [if_neg hs]
    intro _
    exact loopStep_tgt_of_not_sync netFun bd st o hs

/-- C6: starting at a sync boundary (`frame_idx` divisible by the sync
interval), the target parameters are unchanged over any run of fewer than
`SYNC_TARGET_FRAMES = 1000` loop iterations; and on any iteration that reaches
the update phase at a sync frame, the target parameters immediately after are
exactly the online parameters. -/
theorem target_network_sync {S W : Type} (netFun : W → S → List ℚ) (bd : ℚ) :
    (∀ (st : TrainState S W) (os : List (StepOracle S W)),
        st.frame_idx % SYNC_TARGET_FRAMES = 0 → os.length < SYNC_TARGET_FRAMES →
        (runLoop netFun bd st os).tgtP = st.tgtP) ∧
    (∀ (st : TrainState S W) (o : StepOracle S W),
        (st.frame_idx + 1) % SYNC_TARGET_FRAMES = 0 →
        (loopStep netFun bd st o).sampled = true →
        (loopStep netFun bd st o).state.tgtP = st.netP) := by
  constructor
  · intro st os h0 hlen
    apply runLoop_tgt_no_sync
    rw [h0]
    omega
  · intro st o h1 h2
    rw [loopStep_tgt_of_sampled netFun bd st o h2, if_pos h1]

theorem play_step_buf {S : Type} (net : S → List ℚ) (epsilon rand : ℚ)
    (randAction : Nat) (envStep : Nat → S × ℚ × Bool) (resetObs : S)
    (ag : AgentState S) (buf : ExperienceBuffer S) :
    (play_step net epsilon rand randAction envStep resetObs ag buf).2.1 =
      buf.append
        ⟨ag.state, chooseAction net ag.state epsilon rand randAction,
         (envStep (chooseAction net ag.state epsilon rand randAction)).2.1,
         (envStep (chooseAction net ag.state epsilon rand randAction)).2.2,
         (envStep (chooseAction net ag.state epsilon rand randAction)).1⟩ := by
  unfold play_step
  dsimp only
  split
  all_goals rfl

theorem loopStep_sampled_of {S W : Type} (netFun : W → S → List ℚ) (bd : ℚ)
    (st : TrainState S W) (o : StepOracle S W)
    (hrew : (play_step (netFun st.netP) (epsilonAt (st.frame_idx + 1)) o.rand
        o.randAction o.envStep o.resetObs st.agent st.buffer).2.2 = none)
    (hlen : ¬ (play_step (netFun st.netP) (epsilonAt (st.frame_idx + 1)) o.rand
        o.randAction o.envStep o.resetObs st.agent
        st.buffer).2.1.buffer.length < REPLAY_START_SIZE) :
    (loopStep netFun bd st o).sampled = true := by
  unfold loopStep
  dsimp only
  rw [hrew]
  dsimp only
  rw [if_neg (by decide : ¬ (false = true)), if_neg hlen]
  split
  all_goals rfl

/-- Witness for C6: an empty run keeps the target parameters `1`; a single
iteration at frame 1000 with a full buffer syncs them to the online
parameters `0`. -/
theorem target_network_sync_witness :
    (runLoop (S := Unit) (W := Nat) (fun _ _ => [0]) 1000
        ⟨0, 1, ⟨(), 0⟩, ⟨10, []⟩, 0, 1, [], none⟩ []).tgtP = 1 ∧
    (loopStep (S := Unit) (W := Nat) (fun _ _ => [0]) 1000
        ⟨999, 1, ⟨(), 0⟩, ⟨10000, List.replicate 10000 ⟨(), 0, 0, false, ()⟩⟩,
         0, 1, [], none⟩
        ⟨1, 0, fun _ => ((), 0, false), (), fun _ => List.range 32,
         fun p _ => p⟩).state.tgtP = 0 := by
  constructor
  · exact (target_network_sync (S := Unit) (W := Nat) (fun _ _ => [0]) 1000).1
      ⟨0, 1, ⟨(), 0⟩, ⟨10, []⟩, 0, 1, [], none⟩ [] rfl (by decide)
  · apply (target_network_sync (S := Unit) (W := Nat) (fun _ _ => [0]) 1000).2
      ⟨999, 1, ⟨(), 0⟩, ⟨10000, List.replicate 10000 ⟨(), 0, 0, false, ()⟩⟩,
       0, 1, [], none⟩
      ⟨1, 0, fun _ => ((), 0, false), (), fun _ => List.range 32,
       fun p _ => p⟩ (by decide)
    apply loopStep_sampled_of
    · rfl
    · dsimp only
      rw [play_step_buf, append_buffer_eq _ _ ?hle]
      case hle =>
        dsimp only
        rw [List.length_replicate]
      dsimp only
      rw [List.length_drop, List.length_append, List.length_replicate,
        List.length_singleton, show REPLAY_START_SIZE = 10000 from rfl]
      omega

theorem getRecords_isSome {S : Type} (l : List (Experience S)) :
    ∀ idx : List Nat, (∀ i ∈ idx, i < l.length) →
      ∃ rs, getRecords l idx = some rs := by
  intro idx
  induction idx with
  | nil => intro _; exact ⟨[], rfl⟩
  | cons i is ih =>
      intro h
      obtain ⟨rs, hrs⟩ := ih fun j hj => h j (List.mem_cons_of_mem _ hj)
      have hi : i < l.length := h i (List.mem_cons_self i is)
      cases hx : l.get? i with
      | none =>
          have := List.get?_eq_none.mp hx
          omega
      | some r =>
          refine ⟨r :: rs, ?_⟩
          show (match l.get? i, getRecords l is with
                | some r, some rs => some (r :: rs)
                | _, _ => none) = _
          rw [hx, hrs]

theorem sample_isSome_of_bounds {S : Type} (b : ExperienceBuffer S) (k : Nat)
    (indices : List Nat) (hk : k ≤ b.buffer.length)
    (hbnd : ∀ i ∈ indices, i < b.buffer.length) :
    ∃ t, b.sample k indices = some t := by
  obtain ⟨rs, hrs⟩ := getRecords_isSome b.buffer indices hbnd
  refine ⟨(rs.map Experience.state, rs.map Experience.action,
    rs.map Experience.reward, rs.map Experience.done,
    rs.map Experience.new_state), ?_⟩
  unfold ExperienceBuffer.sample
  rw [if_pos hk, hrs]
  rfl

theorem loopStep_sampleFailed_eq {S W : Type} (netFun : W → S → List ℚ) (bd : ℚ)
    (st : TrainState S W) (o : StepOracle S W) :
    (loopStep netFun bd st o).sampleFailed = true →
      ((play_step (netFun st.netP) (epsilonAt (st.frame_idx + 1)) o.rand
          o.randAction o.envStep o.resetObs st.agent st.buffer).2.1.sample
          BATCH_SIZE
          (o.choose (play_step (netFun st.netP) (epsilonAt (st.frame_idx + 1))
            o.rand o.randAction o.envStep o.resetObs st.agent
            st.buffer).2.1.buffer.length) = none ∧
       ¬ (play_step (netFun st.netP) (epsilonAt (st.frame_idx + 1)) o.rand
          o.randAction o.envStep o.resetObs st.agent
          st.buffer).2.1.buffer.length < REPLAY_START_SIZE) := by
  unfold loopStep
  dsimp only
  repeat' split
  all_goals intro h
  all_goals first
    | exact ⟨by assumption, by assumption⟩
    | cases h

/-- C8: `sample` fails whenever the requested batch size exceeds the buffer's
population; in the training loop this failure is unreachable — whenever the
drawn indices obey the numpy contract, no iteration ends in a sample failure,
because iterations with fewer than `REPLAY_START_SIZE = 10000 ≥ 32 =
BATCH_SIZE` stored records skip the sample-and-update phase entirely. -/
theorem sample_failure_unreachable {S W : Type} (netFun : W → S → List ℚ)
    (bd : ℚ) :
    (∀ (b : ExperienceBuffer S) (k : Nat) (idx : List Nat),
        b.buffer.length < k → b.sample k idx = none) ∧
    (∀ (st : TrainState S W) (o : StepOracle S W),
        (∀ n, BATCH_SIZE ≤ n → npChoiceSpec n BATCH_SIZE (o.choose n)) →
        (loopStep netFun bd st o).sampleFailed = false) := by
  constructor
  · intro b k idx h
    unfold ExperienceBuffer.sample
    rw [if_neg (by omega)]
  · intro st o hc
    cases hsf : (loopStep netFun bd st o).sampleFailed with
    | false => rfl
    | true =>
        exfalso
        obtain ⟨hnone, hlen⟩ := loopStep_sampleFailed_eq netFun bd st o hsf
        have hRS : REPLAY_START_SIZE = 10000 := rfl
        have hBS : BATCH_SIZE = 32 := rfl
        have h32 : BATCH_SIZE ≤ (play_step (netFun st.netP)
            (epsilonAt (st.frame_idx + 1)) o.rand o.randAction o.envStep
            o.resetObs st.agent st.buffer).2.1.buffer.length := by
          rw [hRS] at hlen
          rw [hBS]
          omega
        obtain ⟨hlen32, hnd, hbnd⟩ := hc _ h32
        obtain ⟨t, ht⟩ := sample_isSome_of_bounds _ BATCH_SIZE _ h32 hbnd
        rw [ht] at hnone
        cases hnone

/-- Witness for C8: sampling one record from an empty buffer fails, and an
iteration on a near-empty buffer with contract-conforming index draws has no
sample failure. -/
theorem sample_failure_unreachable_witness :
    ExperienceBuffer.sample (S := Unit) ⟨5, []⟩ 1 [] = none ∧
    (loopStep (S := Unit) (W := Nat) (fun _ _ => [0]) 1000
        ⟨0, 1, ⟨(), 0⟩, ⟨10000, []⟩, 0, 1, [], none⟩
        ⟨1, 0, fun _ => ((), 0, false), (), fun n => List.range BATCH_SIZE,
         fun p _ => p⟩).sampleFailed = false := by
  constructor
  · exact (sample_failure_unreachable (S := Unit) (W := Nat)
      (fun _ _ => [0]) 1000).1 ⟨5, []⟩ 1 [] (by decide)
  · refine (sample_failure_unreachable (S := Unit) (W := Nat)
      (fun _ _ => [0]) 1000).2
      ⟨0, 1, ⟨(), 0⟩, ⟨10000, []⟩, 0, 1, [], none⟩
      ⟨1, 0, fun _ => ((), 0, false), (), fun n => List.range BATCH_SIZE,
       fun p _ => p⟩ ?_
    intro n hn
    dsimp only
    refine ⟨List.length_range _, List.nodup_range _, ?_⟩
    intro i hi
    exact lt_of_lt_of_le (List.mem_range.mp hi) hn

theorem loopStep_episode_none {S W : Type} (netFun : W → S → List ℚ) (bd : ℚ)
    (st : TrainState S W) (o : StepOracle S W) (r : ℚ)
    (hrew : (play_step (netFun st.netP) (epsilonAt (st.frame_idx + 1)) o.rand
        o.randAction o.envStep o.resetObs st.agent st.buffer).2.2 = some r)
    (hbest : st.best_mean_reward = none)
    (hstop : ¬ bd < npMean (lastN 100 (st.total_rewards ++ [r])))
    (hlen : (play_step (netFun st.netP) (epsilonAt (st.frame_idx + 1)) o.rand
        o.randAction o.envStep o.resetObs st.agent
        st.buffer).2.1.buffer.length < REPLAY_START_SIZE) :
    (loopStep netFun bd st o).saved = true ∧
    (loopStep netFun bd st o).stop = false ∧
    (loopStep netFun bd st o).state =
      { st with
        frame_idx := st.frame_idx + 1,
        epsilon := epsilonAt (st.frame_idx + 1),
        agent := (play_step (netFun st.netP) (epsilonAt (st.frame_idx + 1)) o.rand
          o.randAction o.envStep o.resetObs st.agent st.buffer).1,
        buffer := (play_step (netFun st.netP) (epsilonAt (st.frame_idx + 1)) o.rand
          o.randAction o.envStep o.resetObs st.agent st.buffer).2.1,
        total_rewards := st.total_rewards ++ [r],
        best_mean_reward := none } := by
  unfold loopStep
  dsimp only
  rw [hrew]
  dsimp only
  rw [hbest]
  dsimp only
  rw [decide_eq_false hstop]
  rw [if_neg (by decide : ¬ (false = true))]
  rw [if_pos hlen]
  exact ⟨rfl, rfl, rfl⟩

/-- C7 (code bug): in the loop as written, `best_mean_reward = mean_reward` is
nested inside `if best_mean_reward is not None:`, so `best_mean_reward` stays
`None` forever and the save branch fires on every episode completion.  Here
the first episode's trailing-100 mean is `5`; the second episode drags it down
to `3 < 5` — no new best — yet the parameters are saved again, contradicting
the claim that saves happen exactly on strict improvements. -/
theorem saves_without_new_best :
    (loopStep (fun _ _ => [0]) 1000 demoState0 (demoOracle 5)).saved = true ∧
    (loopStep (fun _ _ => [0]) 1000 demoState0
        (demoOracle 5)).state.best_mean_reward = none ∧
    (loopStep (fun _ _ => [0]) 1000
        (loopStep (fun _ _ => [0]) 1000 demoState0 (demoOracle 5)).state
        (demoOracle 1)).saved = true ∧
    npMean (lastN 100 (loopStep (fun _ _ => [0]) 1000
        (loopStep (fun _ _ => [0]) 1000 demoState0 (demoOracle 5)).state
        (demoOracle 1)).state.total_rewards) <
      npMean (lastN 100 (loopStep (fun _ _ => [0]) 1000 demoState0
        (demoOracle 5)).state.total_rewards) := by
  have hstop1 : ¬ (1000 : ℚ) <
      npMean (lastN 100 (demoState0.total_rewards ++ [(0 : ℚ) + 5])) := by
    show ¬ (1000 : ℚ) < npMean (lastN 100 ([] ++ [(0 : ℚ) + 5]))
    norm_num [npMean, lastN]
  have h1 := loopStep_episode_none (fun _ _ => [0]) 1000 demoState0
    (demoOracle 5) ((0 : ℚ) + 5) rfl rfl hstop1 (by decide)
  have he1 := h1.2.2
  have htot1 : (loopStep (fun _ _ => [0]) 1000 demoState0
      (demoOracle 5)).state.total_rewards =
      demoState0.total_rewards ++ [(0 : ℚ) + 5] := by
    rw [he1]
  have hbest1 : (loopStep (fun _ _ => [0]) 1000 demoState0
      (demoOracle 5)).state.best_mean_reward = none := by
    rw [he1]
  have hstop2 : ¬ (1000 : ℚ) <
      npMean (lastN 100 ((loopStep (fun _ _ => [0]) 1000 demoState0
        (demoOracle 5)).state.total_rewards ++ [(0 : ℚ) + 1])) := by
    rw [htot1]
    show ¬ (1000 : ℚ) <
      npMean (lastN 100 (([] ++ [(0 : ℚ) + 5]) ++ [(0 : ℚ) + 1]))
    norm_num [npMean, lastN]
  have hrew2 : (play_step ((fun _ _ => [0] : Unit → Unit → List ℚ)
      (loopStep (fun _ _ => [0]) 1000 demoState0 (demoOracle 5)).state.netP)
      (epsilonAt ((loopStep (fun _ _ => [0]) 1000 demoState0
        (demoOracle 5)).state.frame_idx + 1))
      (demoOracle 1).rand (demoOracle 1).randAction (demoOracle 1).envStep
      (demoOracle 1).resetObs
      (loopStep (fun _ _ => [0]) 1000 demoState0 (demoOracle 5)).state.agent
      (loopStep (fun _ _ => [0]) 1000 demoState0
        (demoOracle 5)).state.buffer).2.2 = some ((0 : ℚ) + 1) := by
    rw [he1]
    rfl
  have hlen2 : (play_step ((fun _ _ => [0] : Unit → Unit → List ℚ)
      (loopStep (fun _ _ => [0]) 1000 demoState0 (demoOracle 5)).state.netP)
      (epsilonAt ((loopStep (fun _ _ => [0]) 1000 demoState0
        (demoOracle 5)).state.frame_idx + 1))
      (demoOracle 1).rand (demoOracle 1).randAction (demoOracle 1).envStep
      (demoOracle 1).resetObs
      (loopStep (fun _ _ => [0]) 1000 demoState0 (demoOracle 5)).state.agent
      (loopStep (fun _ _ => [0]) 1000 demoState0
        (demoOracle 5)).state.buffer).2.1.buffer.length < REPLAY_START_SIZE := by
    rw [he1]
    decide
  have h2 := loopStep_episode_none (fun _ _ => [0]) 1000
    ((loopStep (fun _ _ => [0]) 1000 demoState0 (demoOracle 5)).state)
    (demoOracle 1) ((0 : ℚ) + 1) hrew2 hbest1 hstop2 hlen2
  refine ⟨h1.1, hbest1, h2.1, ?_⟩
  rw [h2.2.2]
  show npMean (lastN 100 ((loopStep (fun _ _ => [0]) 1000 demoState0
      (demoOracle 5)).state.total_rewards ++ [(0 : ℚ) + 1])) <
    npMean (lastN 100 (loopStep (fun _ _ => [0]) 1000 demoState0
      (demoOracle 5)).state.total_rewards)
  rw [htot1]
  show npMean (lastN 100 (([] ++ [(0 : ℚ) + 5]) ++ [(0 : ℚ) + 1])) <
    npMean (lastN 100 ([] ++ [(0 : ℚ) + 5]))
  norm_num [npMean, lastN]
